import Mathlib

/-!
Shallow embedding of `simulation.py` (class `MovingAgentSimulation`).

The grid is a total function `ℕ × ℕ → ℚ` together with a size `(nx, ny)`;
the Python code stores cell states as numbers in a numpy array of floats,
so cells are modelled as rationals and the four state constants as the
numerals the source assigns.  Randomness is passed in explicitly: each
phase of `step` receives one draw per visited cell, indexed in the order
the source iterates (row-major, the order `np.where` returns), and the
movement phase receives the three random integer streams produced by
`np.random.randint`.
-/

/-- Class constant `SUSCEPTIBLE = 1`. -/
def SUSCEPTIBLE : ℚ := 1

/-- Class constant `LATENT = 2`. -/
def LATENT : ℚ := 2

/-- Class constant `INFECTED = 3`. -/
def INFECTED : ℚ := 3

/-- Class constant `RECOVER = 4`. -/
def RECOVER : ℚ := 4

/-- The simulation object: grid size, the four rate parameters, the grid
itself (`self.map`) and the step counter (`self.n`). -/
structure MovingAgentSimulation where
  size : ℕ × ℕ
  infect : ℚ
  symptom : ℚ
  recover : ℚ
  moving : ℚ
  map : ℕ × ℕ → ℚ
  n : ℕ

/-- `__init__`: stores the parameters, fills the grid with `SUSCEPTIBLE`
(`np.ones(size) * SUSCEPTIBLE`) and sets the step counter to `0`.  The
source performs no validation of any argument. -/
def init (size : ℕ × ℕ) (infect symptom recover moving : ℚ) :
    MovingAgentSimulation :=
  { size := size, infect := infect, symptom := symptom, recover := recover,
    moving := moving, map := fun _ => SUSCEPTIBLE, n := 0 }

/-- `initialize(ratio, state)`: draws one uniform value per cell and writes
`state` into every in-bounds cell whose draw is strictly below the ratio
(`self.map[rand < ratio] = state`).  The source accepts any `state` value. -/
def seed (sim : MovingAgentSimulation) (frac : ℚ) (state : ℚ)
    (draws : ℕ × ℕ → ℚ) : MovingAgentSimulation :=
  { sim with
    map := fun p =>
      if p.1 < sim.size.1 ∧ p.2 < sim.size.2 ∧ draws p < frac then state
      else sim.map p }

/-- The random draws one `step` call consumes: one uniform draw per cell
visited in each transition phase (indexed in visiting order, as the
per-phase `np.random.rand(len(...))` arrays are) and the three
`np.random.randint` streams the exchange loop reads. -/
structure Draws where
  recoverDraw : ℕ → ℚ
  symptomDraw : ℕ → ℚ
  infectDraw : ℕ → ℚ
  moveX : ℕ → ℕ
  moveY : ℕ → ℕ
  moveD : ℕ → ℕ

/-- `get_state`: the pair `(self.n, self.map)`. -/
def get_state (sim : MovingAgentSimulation) : ℕ × (ℕ × ℕ → ℚ) :=
  (sim.n, sim.map)

/-- All grid positions in row-major order, the order in which `np.where`
enumerates the cells of a 2-d array of shape `(nx, ny)`. -/
def allPositions (sz : ℕ × ℕ) : List (ℕ × ℕ) :=
  (List.range sz.1).flatMap fun x => (List.range sz.2).map fun y => (x, y)

/-- `list(zip(*np.where(self.map == v)))`: the row-major list of positions
whose cell currently equals `v`. -/
def positionsOf (sz : ℕ × ℕ) (g : ℕ × ℕ → ℚ) (v : ℚ) : List (ℕ × ℕ) :=
  (allPositions sz).filter fun p => decide (g p = v)

/-- One numpy element assignment `self.map[p] = v`. -/
def setCell (g : ℕ × ℕ → ℚ) (p : ℕ × ℕ) (v : ℚ) : ℕ × ℕ → ℚ :=
  fun q => if q = p then v else g q

/-- The common loop shape of the three transition phases: walk an indexed
list of positions and, wherever the condition fires against the current
(live) grid, overwrite that position with the target value. -/
def passFold (cond : (ℕ × ℕ → ℚ) → ℕ × (ℕ × ℕ) → Bool) (t : ℚ)
    (g : ℕ × ℕ → ℚ) (l : List (ℕ × (ℕ × ℕ))) : ℕ × ℕ → ℚ :=
  l.foldl (fun m x => if cond m x then setCell m x.2 t else m) g

/-- The neighbor test of the infection loop, reading the live grid `m`:
`map[max(x-1,0), y] > S or map[min(x+1,nx-1), y] > S or
 map[x, max(y-1,0)] > S or map[x, min(y+1,ny-1)] > S`
(on `ℕ`, `x - 1` is truncated and equals `max(x-1, 0)`). -/
def nbCheck (sz : ℕ × ℕ) (m : ℕ × ℕ → ℚ) (p : ℕ × ℕ) : Bool :=
  decide (m (p.1 - 1, p.2) > SUSCEPTIBLE) ||
  decide (m (min (p.1 + 1) (sz.1 - 1), p.2) > SUSCEPTIBLE) ||
  decide (m (p.1, p.2 - 1) > SUSCEPTIBLE) ||
  decide (m (p.1, min (p.2 + 1) (sz.2 - 1)) > SUSCEPTIBLE)

/-- Recovery phase: list the `INFECTED` cells, then set each one whose
draw satisfies `r <= self.recover` to `RECOVER`. -/
def recoverPass (sz : ℕ × ℕ) (recover : ℚ) (d : ℕ → ℚ)
    (g : ℕ × ℕ → ℚ) : ℕ × ℕ → ℚ :=
  passFold (fun _ x => decide (d x.1 ≤ recover)) RECOVER g
    (positionsOf sz g INFECTED).enum

/-- Symptom phase: list the `LATENT` cells, then set each one whose draw
satisfies `r <= self.symptom` to `INFECTED`. -/
def symptomPass (sz : ℕ × ℕ) (symptom : ℚ) (d : ℕ → ℚ)
    (g : ℕ × ℕ → ℚ) : ℕ × ℕ → ℚ :=
  passFold (fun _ x => decide (d x.1 ≤ symptom)) INFECTED g
    (positionsOf sz g LATENT).enum

/-- Infection loop over an explicit visiting list: each visited cell whose
draw satisfies `r <= self.infect` and whose neighbor test fires against
the live grid is set to `LATENT`. -/
def infectPassOn (sz : ℕ × ℕ) (infect : ℚ) (d : ℕ → ℚ)
    (g : ℕ × ℕ → ℚ) (ps : List (ℕ × ℕ)) : ℕ × ℕ → ℚ :=
  passFold (fun m x => decide (d x.1 ≤ infect) && nbCheck sz m x.2) LATENT
    g ps.enum

/-- Infection phase as the source runs it: the visiting list is the
row-major list of cells that are `SUSCEPTIBLE` when the phase starts. -/
def infectPass (sz : ℕ × ℕ) (infect : ℚ) (d : ℕ → ℚ)
    (g : ℕ × ℕ → ℚ) : ℕ × ℕ → ℚ :=
  infectPassOn sz infect d g (positionsOf sz g SUSCEPTIBLE)

/-- The three-assignment swap at the end of each exchange attempt
(`temp = map[x,y]; map[x,y] = map[x2,y2]; map[x2,y2] = temp`). -/
def swapCells (g : ℕ × ℕ → ℚ) (p q : ℕ × ℕ) : ℕ × ℕ → ℚ :=
  setCell (setCell g p (g q)) q (g p)

/-- One iteration of the exchange loop: pick the target one step in the
drawn direction; attempts that would leave the grid are discarded. -/
def exchangeStep (sz : ℕ × ℕ) (m : ℕ × ℕ → ℚ) (x y dir : ℕ) : ℕ × ℕ → ℚ :=
  if dir = 0 then (if x = 0 then m else swapCells m (x, y) (x - 1, y))
  else if dir = 1 then
    (if x = sz.1 - 1 then m else swapCells m (x, y) (x + 1, y))
  else if dir = 2 then (if y = 0 then m else swapCells m (x, y) (x, y - 1))
  else (if y = sz.2 - 1 then m else swapCells m (x, y) (x, y + 1))

/-- `n = int(self.moving * self.size[0] * self.size[1])`: the number of
exchange attempts (truncation agrees with the floor on the nonnegative
values the guard `moving > 0` admits). -/
def exchangeCount (sim : MovingAgentSimulation) : ℕ :=
  (⌊sim.moving * (sim.size.1 : ℚ) * (sim.size.2 : ℚ)⌋).toNat

/-- `exchange`: run `exchangeCount` attempts in order, attempt `i` using
the `i`-th entries of the three random integer streams. -/
def exchange (sim : MovingAgentSimulation) (d : Draws) : ℕ × ℕ → ℚ :=
  (List.range (exchangeCount sim)).foldl
    (fun m i => exchangeStep sim.size m (d.moveX i) (d.moveY i) (d.moveD i))
    sim.map

/-- The grid produced by one `step` call: recovery, then symptom, then
infection, each reading the grid the previous phase left behind, then the
exchange phase when `self.moving > 0`. -/
def stepMap (sim : MovingAgentSimulation) (d : Draws) : ℕ × ℕ → ℚ :=
  let m1 := recoverPass sim.size sim.recover d.recoverDraw sim.map
  let m2 := symptomPass sim.size sim.symptom d.symptomDraw m1
  let m3 := infectPass sim.size sim.infect d.infectDraw m2
  if sim.moving > 0 then exchange { sim with map := m3 } d else m3

/-- `step`: update the grid and increment the step counter. -/
def step (sim : MovingAgentSimulation) (d : Draws) : MovingAgentSimulation :=
  { sim with map := stepMap sim d, n := sim.n + 1 }

/-- `convert_to_rgb`: shape-preserving display map.  The output starts as
zeros and the four disjoint masks `data == state` paint the four colors,
so a cell holding any other value keeps `(0, 0, 0)`. -/
def convert_to_rgb (data : (ℕ × ℕ) × (ℕ × ℕ → ℚ)) :
    (ℕ × ℕ) × (ℕ × ℕ → ℤ × ℤ × ℤ) :=
  (data.1, fun p =>
    if data.2 p = SUSCEPTIBLE then (55, 55, 200)
    else if data.2 p = LATENT then (255, 255, 55)
    else if data.2 p = INFECTED then (200, 55, 55)
    else if data.2 p = RECOVER then (55, 200, 55)
    else (0, 0, 0))

/-- Error kinds named by the specification (the source raises neither). -/
inductive SimError where
  | invalidParameter : SimError
  | invalidSeedState : SimError

/-- The construction contract as the specification words it, for
comparison with `init`: positive dimensions and all four rates in
`[0, 1]`, otherwise an `InvalidParameter` failure with no object. -/
def constructSpec (size : ℕ × ℕ) (infect symptom recover moving : ℚ) :
    Except SimError MovingAgentSimulation :=
  if 0 < size.1 ∧ 0 < size.2 ∧
      0 ≤ infect ∧ infect ≤ 1 ∧ 0 ≤ symptom ∧ symptom ≤ 1 ∧
      0 ≤ recover ∧ recover ≤ 1 ∧ 0 ≤ moving ∧ moving ≤ 1 then
    Except.ok (init size infect symptom recover moving)
  else Except.error SimError.invalidParameter

set_option maxRecDepth 100000

/-! ### Concrete scenario objects used by the claim theorems -/

/-- A concrete draw value strictly inside `(0, 1)`. -/
def half : ℚ := mkRat 1 2

/-- Seeding draws that hit exactly the center cell of a 3-by-3 grid. -/
def seedCenter : ℕ × ℕ → ℚ := fun p => if p = (1, 1) then 0 else 1

/-- The 3-by-3 scenario grid: all `SUSCEPTIBLE` except an `INFECTED`
center, with `infect = 1`, `symptom = 0`, `recover = 0`, `moving = 0`. -/
def sim3 : MovingAgentSimulation :=
  seed (init (3, 3) 1 0 0 0) half INFECTED seedCenter

/-- Draws that are `1/2` in every transition phase and pick source cell
`(0, 0)` with direction `0` in every exchange attempt. -/
def halfDraws : Draws :=
  { recoverDraw := fun _ => half, symptomDraw := fun _ => half,
    infectDraw := fun _ => half, moveX := fun _ => 0, moveY := fun _ => 0,
    moveD := fun _ => 0 }

/-- A one-row grid holding `INFECTED` at `(0, 0)` and `SUSCEPTIBLE`
elsewhere, read at sizes `(1, 2)` and `(1, 3)`. -/
def gLine : ℕ × ℕ → ℚ := fun p => if p = (0, 0) then INFECTED else SUSCEPTIBLE

/-- A fresh 1-by-1 simulation, target of an invalid seeding call. -/
def simSeed : MovingAgentSimulation := init (1, 1) 0 0 0 0

/-- A 1-by-2 grid with `RECOVER` at `(0, 0)`, `SUSCEPTIBLE` at `(0, 1)`,
all transition rates `0` and `moving = 1` (so two exchange attempts). -/
def simMove : MovingAgentSimulation :=
  seed (init (1, 2) 0 0 0 1) 1 RECOVER (fun p => if p = (0, 0) then 0 else 1)

/-- Draws whose first exchange attempt moves `(0, 0)` in direction `3`
(swap with `(0, 1)`) and whose second attempt is discarded. -/
def moveDraws : Draws :=
  { recoverDraw := fun _ => half, symptomDraw := fun _ => half,
    infectDraw := fun _ => half, moveX := fun _ => 0, moveY := fun _ => 0,
    moveD := fun i => if i = 0 then 3 else 0 }

/-- A 2-by-1 grid seeded entirely `INFECTED`, with `recover = 1` and
`moving = 0`. -/
def simC7 : MovingAgentSimulation :=
  seed (init (2, 1) 0 0 1 0) 1 INFECTED (fun _ => 0)

/-- A 1-by-1 simulation with `moving = 1`, so one exchange attempt runs. -/
def sim1 : MovingAgentSimulation := init (1, 1) 1 1 1 1

/-! ### Structural lemmas about the embedding -/

lemma mem_allPositions {sz p} :
    p ∈ allPositions sz ↔ p.1 < sz.1 ∧ p.2 < sz.2 := by
  obtain ⟨x, y⟩ := p
  simp only [allPositions, List.mem_flatMap, List.mem_map, List.mem_range,
    Prod.mk.injEq]
  constructor
  · rintro ⟨a, ha, b, hb, rfl, rfl⟩
    exact ⟨ha, hb⟩
  · rintro ⟨hx, hy⟩
    exact ⟨x, hx, y, hy, rfl, rfl⟩

lemma nodup_allPositions (sz : ℕ × ℕ) : (allPositions sz).Nodup := by
  rw [allPositions, List.nodup_flatMap]
  constructor
  · intro x _
    exact (List.nodup_range sz.2).map
      (fun a b h => ((Prod.mk.injEq x a x b).mp h).2)
  · have hpw : (List.range sz.1).Pairwise (· ≠ ·) :=
      List.Pairwise.imp (fun h => Nat.ne_of_lt h) (List.pairwise_lt_range sz.1)
    refine hpw.imp ?_
    intro a b hab r hra hrb
    obtain ⟨ya, _, rfl⟩ := List.mem_map.mp hra
    obtain ⟨yb, _, heq⟩ := List.mem_map.mp hrb
    exact hab ((Prod.mk.injEq _ _ _ _).mp heq).1.symm

lemma mem_positionsOf {sz g v p} :
    p ∈ positionsOf sz g v ↔ (p.1 < sz.1 ∧ p.2 < sz.2) ∧ g p = v := by
  simp [positionsOf, List.mem_filter, mem_allPositions]

lemma nodup_positionsOf (sz g v) : (positionsOf sz g v).Nodup :=
  (nodup_allPositions sz).filter _

lemma mem_positionsOf_of_mem_enum {sz g v} {x : ℕ × (ℕ × ℕ)}
    (hx : x ∈ (positionsOf sz g v).enum) : x.2 ∈ positionsOf sz g v := by
  have := List.mem_map_of_mem Prod.snd hx
  rwa [List.enum_map_snd] at this

lemma passFold_apply_of_forall_ne (cond t) :
    ∀ (l : List (ℕ × (ℕ × ℕ))) (g : ℕ × ℕ → ℚ) (p : ℕ × ℕ),
      (∀ x ∈ l, x.2 ≠ p) → passFold cond t g l p = g p := by
  intro l
  induction l with
  | nil => intro g p _; rfl
  | cons x tl ih =>
    intro g p h
    show passFold cond t (if cond g x then setCell g x.2 t else g) tl p = g p
    rw [ih _ p fun y hy => h y (List.mem_cons_of_mem x hy)]
    by_cases hc : cond g x = true
    · rw [if_pos hc, setCell,
        if_neg fun he => h x (List.mem_cons_self x tl) he.symm]
    · rw [if_neg hc]

lemma passFold_apply_of_mem (cond t) :
    ∀ (l : List (ℕ × (ℕ × ℕ))) (g : ℕ × ℕ → ℚ) (p : ℕ × ℕ),
      (∀ (m : ℕ × ℕ → ℚ) (x : ℕ × (ℕ × ℕ)), x ∈ l → cond m x = true) →
      (∃ x ∈ l, x.2 = p) → passFold cond t g l p = t := by
  intro l
  induction l with
  | nil =>
    intro g p _ hp
    obtain ⟨x, hx, _⟩ := hp
    exact absurd hx (List.not_mem_nil x)
  | cons x tl ih =>
    intro g p hall hp
    show passFold cond t (if cond g x then setCell g x.2 t else g) tl p = t
    rw [if_pos (hall g x (List.mem_cons_self x tl))]
    by_cases hmem : ∃ y ∈ tl, y.2 = p
    · exact ih _ p (fun m y hy => hall m y (List.mem_cons_of_mem x hy)) hmem
    · have hxp : x.2 = p := by
        obtain ⟨y, hy, hyp⟩ := hp
        rcases List.mem_cons.mp hy with h | h
        · rw [← h]; exact hyp
        · exact absurd ⟨y, h, hyp⟩ hmem
      rw [passFold_apply_of_forall_ne cond t tl _ p
        fun y hy hyp => hmem ⟨y, hy, hyp⟩]
      rw [setCell, if_pos hxp.symm]

lemma passFold_eq_of_forall_false (cond t) :
    ∀ (l : List (ℕ × (ℕ × ℕ))) (g : ℕ × ℕ → ℚ),
      (∀ (m : ℕ × ℕ → ℚ) (x : ℕ × (ℕ × ℕ)), x ∈ l → cond m x = false) →
      passFold cond t g l = g := by
  intro l
  induction l with
  | nil => intro g _; rfl
  | cons x tl ih =>
    intro g hall
    show passFold cond t (if cond g x then setCell g x.2 t else g) tl = g
    rw [if_neg (ne_true_of_eq_false (hall g x (List.mem_cons_self x tl)))]
    exact ih g fun m y hy => hall m y (List.mem_cons_of_mem x hy)

lemma passFold_le (cond) (t : ℚ) (gref : ℕ × ℕ → ℚ) :
    ∀ (l : List (ℕ × (ℕ × ℕ))) (g : ℕ × ℕ → ℚ),
      (∀ x ∈ l, gref x.2 ≤ t) → (∀ p, gref p ≤ g p) →
      ∀ p, gref p ≤ passFold cond t g l p := by
  intro l
  induction l with
  | nil => intro g _ hg p; exact hg p
  | cons x tl ih =>
    intro g hl hg p
    show gref p ≤ passFold cond t (if cond g x then setCell g x.2 t else g) tl p
    refine ih _ (fun y hy => hl y (List.mem_cons_of_mem x hy)) ?_ p
    intro q
    by_cases hc : cond g x = true
    · rw [if_pos hc, setCell]
      by_cases hq : q = x.2
      · rw [if_pos hq, hq]
        exact hl x (List.mem_cons_self x tl)
      · rw [if_neg hq]
        exact hg q
    · rw [if_neg hc]
      exact hg q

lemma swapCells_self (g : ℕ × ℕ → ℚ) (p r : ℕ × ℕ) : swapCells g p p r = g r := by
  unfold swapCells setCell
  by_cases h : r = p
  · rw [if_pos h, h]
  · rw [if_neg h, if_neg h]

lemma swapCells_fst (g : ℕ × ℕ → ℚ) {p q : ℕ × ℕ} (hpq : p ≠ q) :
    swapCells g p q p = g q := by
  unfold swapCells setCell
  rw [if_neg hpq, if_pos rfl]

lemma swapCells_snd (g : ℕ × ℕ → ℚ) (p q : ℕ × ℕ) : swapCells g p q q = g p := by
  unfold swapCells setCell
  rw [if_pos rfl]

lemma swapCells_other (g : ℕ × ℕ → ℚ) {p q r : ℕ × ℕ} (hrp : r ≠ p)
    (hrq : r ≠ q) : swapCells g p q r = g r := by
  unfold swapCells setCell
  rw [if_neg hrq, if_neg hrp]

lemma countP_swapCells (g : ℕ × ℕ → ℚ) (p q : ℕ × ℕ) (v : ℚ)
    (l : List (ℕ × ℕ)) (hnd : l.Nodup) (hp : p ∈ l) (hq : q ∈ l) :
    (l.countP fun r => decide (swapCells g p q r = v)) =
      l.countP fun r => decide (g r = v) := by
  by_cases hpq : p = q
  · subst hpq
    refine List.countP_congr fun r _ => ?_
    simp only [decide_eq_true_eq]
    rw [swapCells_self]
  · obtain ⟨l1, hl1⟩ : ∃ l1, l.Perm (p :: l1) := ⟨_, List.perm_cons_erase hp⟩
    have hq1 : q ∈ l1 := by
      rcases List.mem_cons.mp (hl1.subset hq) with h | h
      · exact absurd h.symm hpq
      · exact h
    obtain ⟨l2, hl2⟩ : ∃ l2, l1.Perm (q :: l2) := ⟨_, List.perm_cons_erase hq1⟩
    have h2 : l.Perm (p :: q :: l2) := hl1.trans (hl2.cons p)
    have hnd2 : (p :: q :: l2).Nodup := h2.nodup hnd
    rw [h2.countP_eq, h2.countP_eq]
    simp only [List.countP_cons, decide_eq_true_eq]
    have hrest : ∀ r ∈ l2, swapCells g p q r = g r := by
      intro r hr
      have hnp : p ∉ q :: l2 := (List.nodup_cons.mp hnd2).1
      have hnq : q ∉ l2 := (List.nodup_cons.mp (List.nodup_cons.mp hnd2).2).1
      refine swapCells_other g (fun h => hnp ?_) (fun h => hnq (h ▸ hr))
      exact List.mem_cons_of_mem q (h ▸ hr)
    have hcongr :
        l2.countP (fun r => decide (swapCells g p q r = v)) =
          l2.countP fun r => decide (g r = v) := by
      refine List.countP_congr fun r hr => ?_
      simp only [decide_eq_true_eq]
      rw [hrest r hr]
    rw [hcongr, swapCells_fst g hpq, swapCells_snd g p q]
    omega

lemma countP_exchangeStep (sz : ℕ × ℕ) (m : ℕ × ℕ → ℚ) (x y dir : ℕ)
    (hx : x < sz.1) (hy : y < sz.2) (v : ℚ) :
    ((allPositions sz).countP fun r => decide (exchangeStep sz m x y dir r = v)) =
      (allPositions sz).countP fun r => decide (m r = v) := by
  have hmem : (x, y) ∈ allPositions sz := mem_allPositions.mpr ⟨hx, hy⟩
  unfold exchangeStep
  by_cases h0 : dir = 0
  · rw [if_pos h0]
    by_cases hb : x = 0
    · rw [if_pos hb]
    · rw [if_neg hb]
      exact countP_swapCells m (x, y) (x - 1, y) v _ (nodup_allPositions sz)
        hmem (mem_allPositions.mpr ⟨by omega, hy⟩)
  · rw [if_neg h0]
    by_cases h1 : dir = 1
    · rw [if_pos h1]
      by_cases hb : x = sz.1 - 1
      · rw [if_pos hb]
      · rw [if_neg hb]
        exact countP_swapCells m (x, y) (x + 1, y) v _ (nodup_allPositions sz)
          hmem (mem_allPositions.mpr ⟨by omega, hy⟩)
    · rw [if_neg h1]
      by_cases h2 : dir = 2
      · rw [if_pos h2]
        by_cases hb : y = 0
        · rw [if_pos hb]
        · rw [if_neg hb]
          exact countP_swapCells m (x, y) (x, y - 1) v _ (nodup_allPositions sz)
            hmem (mem_allPositions.mpr ⟨hx, by omega⟩)
      · rw [if_neg h2]
        by_cases hb : y = sz.2 - 1
        · rw [if_pos hb]
        · rw [if_neg hb]
          exact countP_swapCells m (x, y) (x, y + 1) v _ (nodup_allPositions sz)
            hmem (mem_allPositions.mpr ⟨hx, by omega⟩)

lemma countP_exchangeFold (sz : ℕ × ℕ) (d : Draws) (v : ℚ)
    (hx : ∀ i, d.moveX i < sz.1) (hy : ∀ i, d.moveY i < sz.2) :
    ∀ (idxs : List ℕ) (m : ℕ × ℕ → ℚ),
      ((allPositions sz).countP fun r =>
        decide ((idxs.foldl
          (fun m0 i => exchangeStep sz m0 (d.moveX i) (d.moveY i) (d.moveD i))
          m) r = v)) =
      (allPositions sz).countP fun r => decide (m r = v) := by
  intro idxs
  induction idxs with
  | nil => intro m; rfl
  | cons i tl ih =>
    intro m
    rw [List.foldl_cons, ih]
    exact countP_exchangeStep sz m (d.moveX i) (d.moveY i) (d.moveD i)
      (hx i) (hy i) v

lemma recoverPass_le (sz : ℕ × ℕ) (rc : ℚ) (dR : ℕ → ℚ) (g : ℕ × ℕ → ℚ)
    (q : ℕ × ℕ) : g q ≤ recoverPass sz rc dR g q := by
  unfold recoverPass
  refine passFold_le _ _ _ _ _ ?_ (fun r => le_refl _) q
  intro x hx
  rw [(mem_positionsOf.mp (mem_positionsOf_of_mem_enum hx)).2]
  decide

lemma symptomPass_le (sz : ℕ × ℕ) (s : ℚ) (dS : ℕ → ℚ) (g : ℕ × ℕ → ℚ)
    (q : ℕ × ℕ) : g q ≤ symptomPass sz s dS g q := by
  unfold symptomPass
  refine passFold_le _ _ _ _ _ ?_ (fun r => le_refl _) q
  intro x hx
  rw [(mem_positionsOf.mp (mem_positionsOf_of_mem_enum hx)).2]
  decide

lemma infectPass_le (sz : ℕ × ℕ) (inf : ℚ) (dI : ℕ → ℚ) (g : ℕ × ℕ → ℚ)
    (q : ℕ × ℕ) : g q ≤ infectPass sz inf dI g q := by
  unfold infectPass infectPassOn
  refine passFold_le _ _ _ _ _ ?_ (fun r => le_refl _) q
  intro x hx
  rw [(mem_positionsOf.mp (mem_positionsOf_of_mem_enum hx)).2]
  decide

lemma symptomPass_ne (sz : ℕ × ℕ) (s : ℚ) (dS : ℕ → ℚ) (g : ℕ × ℕ → ℚ)
    (p : ℕ × ℕ) (h : g p ≠ LATENT) : symptomPass sz s dS g p = g p := by
  unfold symptomPass
  refine passFold_apply_of_forall_ne _ _ _ _ _ ?_
  intro x hx heq
  exact h (heq ▸ (mem_positionsOf.mp (mem_positionsOf_of_mem_enum hx)).2)

lemma infectPass_ne (sz : ℕ × ℕ) (inf : ℚ) (dI : ℕ → ℚ) (g : ℕ × ℕ → ℚ)
    (p : ℕ × ℕ) (h : g p ≠ SUSCEPTIBLE) : infectPass sz inf dI g p = g p := by
  unfold infectPass infectPassOn
  refine passFold_apply_of_forall_ne _ _ _ _ _ ?_
  intro x hx heq
  exact h (heq ▸ (mem_positionsOf.mp (mem_positionsOf_of_mem_enum hx)).2)

lemma recoverPass_all (sz : ℕ × ℕ) (rc : ℚ) (dR : ℕ → ℚ) (g : ℕ × ℕ → ℚ)
    (p : ℕ × ℕ) (hcond : ∀ i, dR i ≤ rc) (hp1 : p.1 < sz.1) (hp2 : p.2 < sz.2)
    (hcell : g p = INFECTED) : recoverPass sz rc dR g p = RECOVER := by
  unfold recoverPass
  refine passFold_apply_of_mem _ _ _ _ _ ?_ ?_
  · intro m x _
    exact decide_eq_true (hcond x.1)
  · refine List.mem_map.mp ?_
    rw [List.enum_map_snd]
    exact mem_positionsOf.mpr ⟨⟨hp1, hp2⟩, hcell⟩

/-! ### Claim theorems -/

/-- C1 (counterexample): in the 3-by-3 center-infected scenario with
`infect = 1`, `symptom = 0`, `recover = 0`, `moving = 0` and all draws
equal to `1/2`, the corner cells `(0,2)`, `(2,0)` and `(2,2)` come out of
the single `step` call `LATENT`, not `SUSCEPTIBLE` as claimed: the
infection loop reads the live grid, so edge cells that turned `LATENT`
earlier in the same row-major sweep infect the corners behind them. -/
theorem c1_counterexample :
    (step sim3 halfDraws).map (0, 2) = LATENT ∧
    (step sim3 halfDraws).map (2, 0) = LATENT ∧
    (step sim3 halfDraws).map (2, 2) = LATENT ∧
    LATENT ≠ SUSCEPTIBLE := by decide

/-- C1 (amended): in the same scenario, for every draw sequence whose
single recovery draw is positive and whose infection draws lie in
`[0, 1)`, one `step` leaves the center `INFECTED`, turns the four edge
neighbors `LATENT`, and also turns the corners `(0,2)`, `(2,0)` and
`(2,2)` `LATENT`; only the corner `(0,0)`, visited before any neighbor
has changed, stays `SUSCEPTIBLE`. -/
theorem c1_amended (d : Draws) (hr : 0 < d.recoverDraw 0)
    (hi : ∀ i, 0 ≤ d.infectDraw i ∧ d.infectDraw i < 1) :
    (step sim3 d).map (0, 0) = SUSCEPTIBLE ∧
    (step sim3 d).map (0, 1) = LATENT ∧
    (step sim3 d).map (0, 2) = LATENT ∧
    (step sim3 d).map (1, 0) = LATENT ∧
    (step sim3 d).map (1, 1) = INFECTED ∧
    (step sim3 d).map (1, 2) = LATENT ∧
    (step sim3 d).map (2, 0) = LATENT ∧
    (step sim3 d).map (2, 1) = LATENT ∧
    (step sim3 d).map (2, 2) = LATENT := by
  have key : (step sim3 d).map =
      setCell (setCell (setCell (setCell (setCell (setCell (setCell
        sim3.map (0, 1) LATENT) (0, 2) LATENT) (1, 0) LATENT) (1, 2) LATENT)
        (2, 0) LATENT) (2, 1) LATENT) (2, 2) LATENT := by
    show stepMap sim3 d = _
    simp only [stepMap]
    rw [if_neg (show ¬ sim3.moving > 0 by decide)]
    have hrec : recoverPass sim3.size sim3.recover d.recoverDraw sim3.map =
        sim3.map := by
      unfold recoverPass
      rw [show positionsOf sim3.size sim3.map INFECTED = [(1, 1)] from by decide]
      show (if decide (d.recoverDraw 0 ≤ sim3.recover) = true
        then setCell sim3.map (1, 1) RECOVER else sim3.map) = sim3.map
      rw [if_neg (by simp only [decide_eq_true_eq]; exact not_le.mpr hr)]
    rw [hrec]
    have hsym : symptomPass sim3.size sim3.symptom d.symptomDraw sim3.map =
        sim3.map := rfl
    rw [hsym]
    unfold infectPass infectPassOn passFold
    rw [show positionsOf sim3.size sim3.map SUSCEPTIBLE =
      [(0, 0), (0, 1), (0, 2), (1, 0), (1, 2), (2, 0), (2, 1), (2, 2)]
      from by decide]
    rw [show ([((0:ℕ), (0:ℕ)), (0, 1), (0, 2), (1, 0), (1, 2), (2, 0), (2, 1),
        (2, 2)] : List (ℕ × ℕ)).enum =
      [(0, ((0:ℕ), (0:ℕ))), (1, (0, 1)), (2, (0, 2)), (3, (1, 0)), (4, (1, 2)),
        (5, (2, 0)), (6, (2, 1)), (7, (2, 2))] from rfl]
    simp only [List.foldl_cons, List.foldl_nil]
    have hid : ∀ i, decide (d.infectDraw i ≤ sim3.infect) = true := fun i =>
      decide_eq_true ((hi i).2.le)
    simp only [hid, Bool.true_and]
    rw [if_neg (show ¬ nbCheck sim3.size sim3.map (0, 0) = true from by decide)]
    rw [if_pos (show nbCheck sim3.size sim3.map (0, 1) = true from by decide)]
    rw [if_pos (show nbCheck sim3.size
      (setCell sim3.map (0, 1) LATENT) (0, 2) = true from by decide)]
    rw [if_pos (show nbCheck sim3.size
      (setCell (setCell sim3.map (0, 1) LATENT) (0, 2) LATENT) (1, 0) = true
      from by decide)]
    rw [if_pos (show nbCheck sim3.size
      (setCell (setCell (setCell sim3.map (0, 1) LATENT) (0, 2) LATENT)
        (1, 0) LATENT) (1, 2) = true from by decide)]
    rw [if_pos (show nbCheck sim3.size
      (setCell (setCell (setCell (setCell sim3.map (0, 1) LATENT) (0, 2)
        LATENT) (1, 0) LATENT) (1, 2) LATENT) (2, 0) = true from by decide)]
    rw [if_pos (show nbCheck sim3.size
      (setCell (setCell (setCell (setCell (setCell sim3.map (0, 1) LATENT)
        (0, 2) LATENT) (1, 0) LATENT) (1, 2) LATENT) (2, 0) LATENT) (2, 1) =
        true from by decide)]
    rw [if_pos (show nbCheck sim3.size
      (setCell (setCell (setCell (setCell (setCell (setCell sim3.map (0, 1)
        LATENT) (0, 2) LATENT) (1, 0) LATENT) (1, 2) LATENT) (2, 0) LATENT)
        (2, 1) LATENT) (2, 2) = true from by decide)]
  rw [key]
  decide

/-- C1 (witness): the amended scenario theorem applied to the concrete
all-`1/2` draw sequence. -/
theorem c1_witness :
    0 < halfDraws.recoverDraw 0 ∧
    ((step sim3 halfDraws).map (0, 0) = SUSCEPTIBLE ∧
     (step sim3 halfDraws).map (0, 1) = LATENT ∧
     (step sim3 halfDraws).map (0, 2) = LATENT ∧
     (step sim3 halfDraws).map (1, 0) = LATENT ∧
     (step sim3 halfDraws).map (1, 1) = INFECTED ∧
     (step sim3 halfDraws).map (1, 2) = LATENT ∧
     (step sim3 halfDraws).map (2, 0) = LATENT ∧
     (step sim3 halfDraws).map (2, 1) = LATENT ∧
     (step sim3 halfDraws).map (2, 2) = LATENT) :=
  ⟨by decide, c1_amended halfDraws (by decide) fun i =>
    ⟨(by decide : (0:ℚ) ≤ half), (by decide : half < 1)⟩⟩

/-- C2 (counterexample): on the 1-by-3 grid `[INFECTED, SUSCEPTIBLE,
SUSCEPTIBLE]` with `infect = 1` and every cell drawing `1/2`, visiting the
two Susceptible cells in the two possible orders (each cell keeping its
draw) disagrees at `(0,2)`: visited second it catches the infection that
`(0,1)` acquired moments earlier, visited first it stays `SUSCEPTIBLE`.
The neighbor test is therefore not evaluated against the grid as it stood
at the start of the phase, and order does affect the outcome. -/
theorem c2_counterexample :
    List.Perm [((0:ℕ), (1:ℕ)), (0, 2)] [(0, 2), (0, 1)] ∧
    infectPassOn (1, 3) 1 (fun _ => half) gLine [(0, 1), (0, 2)] (0, 2) =
      LATENT ∧
    infectPassOn (1, 3) 1 (fun _ => half) gLine [(0, 2), (0, 1)] (0, 2) =
      SUSCEPTIBLE ∧ LATENT ≠ SUSCEPTIBLE :=
  ⟨List.Perm.swap (0, 2) (0, 1) [], by decide, by decide, by decide⟩

/-- C2 (amended): the infection phase reads the live grid as it mutates
it, visiting the Susceptible cells in row-major order; a cell all of whose
neighbors were `SUSCEPTIBLE` when the phase started (its `nbCheck` against
the starting grid is `false`) can still leave the phase `LATENT`. -/
theorem c2_amended :
    nbCheck (1, 3) gLine (0, 2) = false ∧
    gLine (0, 2) = SUSCEPTIBLE ∧
    infectPass (1, 3) 1 (fun _ => half) gLine (0, 2) = LATENT := by decide

/-- C3 (counterexample): constructing with infection probability `2`,
which the claim requires to fail with `InvalidParameter` (as the
spec-worded `constructSpec` indeed does), instead returns a completely
constructed simulation: step counter `0`, grid all `SUSCEPTIBLE`, and the
out-of-range parameter stored as given. -/
theorem c3_counterexample :
    constructSpec (3, 3) 2 0 0 0 = Except.error SimError.invalidParameter ∧
    ¬ ((2:ℚ) ≤ 1) ∧
    (init (3, 3) 2 0 0 0).n = 0 ∧
    (init (3, 3) 2 0 0 0).map (0, 0) = SUSCEPTIBLE ∧
    (init (3, 3) 2 0 0 0).infect = 2 :=
  ⟨rfl, by decide, rfl, rfl, rfl⟩

/-- C3 (amended): construction performs no validation at all: for every
size and every four rate values, valid or not, it succeeds and returns a
simulation whose every cell is `SUSCEPTIBLE` and whose step counter is
`0`. -/
theorem c3_amended (size : ℕ × ℕ) (infect symptom recover moving : ℚ) :
    (init size infect symptom recover moving).n = 0 ∧
    (init size infect symptom recover moving).size = size ∧
    ∀ p, (init size infect symptom recover moving).map p = SUSCEPTIBLE :=
  ⟨rfl, rfl, fun _ => rfl⟩

/-- C4 (counterexample): with infection probability `0`, the draw `0`
(a legal value of `np.random.rand`, which samples `[0, 1)`) satisfies the
source's test `r <= self.infect`, so the Susceptible cell `(0,1)` of the
grid `[INFECTED, SUSCEPTIBLE]` becomes `LATENT` in the infection phase. -/
theorem c4_counterexample :
    gLine (0, 1) = SUSCEPTIBLE ∧
    ((0:ℚ) ≤ 0 ∧ (0:ℚ) < 1) ∧
    infectPass (1, 2) 0 (fun _ => 0) gLine (0, 1) = LATENT := by decide

/-- C4 (amended): with infection probability `0`, the infection phase
changes nothing as long as every draw is strictly positive; only a draw
of exactly `0` can fire. -/
theorem c4_amended (sz : ℕ × ℕ) (d : ℕ → ℚ) (g : ℕ × ℕ → ℚ)
    (hd : ∀ i, 0 < d i) (p : ℕ × ℕ) : infectPass sz 0 d g p = g p := by
  unfold infectPass infectPassOn
  rw [passFold_eq_of_forall_false _ _ _ _ ?_]
  intro m x _
  rw [decide_eq_false (not_le.mpr (hd x.1)), Bool.false_and]

/-- C4 (witness): the amended theorem at the concrete grid `[INFECTED,
SUSCEPTIBLE]` with all draws `1/2`. -/
theorem c4_witness :
    (0:ℚ) < half ∧ infectPass (1, 2) 0 (fun _ => half) gLine (0, 1) =
      gLine (0, 1) :=
  ⟨by decide, c4_amended (1, 2) (fun _ => half) gLine
    (fun _ => (by decide : (0:ℚ) < half)) (0, 1)⟩

/-- C5 (counterexample): with movement enabled (`moving = 1` on a 1-by-2
grid, so two exchange attempts), the first attempt swaps the `RECOVER`
cell `(0,0)` with the `SUSCEPTIBLE` cell `(0,1)`; position `(0,0)` ends
the `step` call holding a strictly smaller state than it started with,
so the per-position no-regression claim fails once exchanges happen. -/
theorem c5_counterexample :
    simMove.map (0, 0) = RECOVER ∧
    (step simMove moveDraws).map (0, 0) = SUSCEPTIBLE ∧
    (step simMove moveDraws).map (0, 0) < simMove.map (0, 0) := by
  have h2 : (step simMove moveDraws).map (0, 0) = SUSCEPTIBLE := by
    have hcnt : exchangeCount simMove = 2 := by
      norm_num [exchangeCount, simMove, seed, init]
      rfl
    show stepMap simMove moveDraws (0, 0) = SUSCEPTIBLE
    simp only [stepMap]
    rw [if_pos (show simMove.moving > 0 by decide)]
    unfold exchange
    rw [show exchangeCount
      { simMove with
        map := infectPass simMove.size simMove.infect moveDraws.infectDraw
          (symptomPass simMove.size simMove.symptom moveDraws.symptomDraw
            (recoverPass simMove.size simMove.recover moveDraws.recoverDraw
              simMove.map)) } = 2 from hcnt]
    decide
  refine ⟨by decide, h2, ?_⟩
  rw [h2]
  decide

/-- C5 (amended): when the movement probability is `0` (no exchange phase
runs), no position regresses in a `step` call: every cell's value after
the three transition phases is at least its value before, for all
parameters and draws, because each phase only rewrites cells holding its
source state to a strictly larger target state. -/
theorem c5_amended (sim : MovingAgentSimulation) (d : Draws)
    (hmov : sim.moving = 0) (p : ℕ × ℕ) : sim.map p ≤ (step sim d).map p := by
  show sim.map p ≤ stepMap sim d p
  simp only [stepMap]
  rw [if_neg (by rw [hmov]; exact lt_irrefl (0 : ℚ))]
  refine le_trans (recoverPass_le sim.size sim.recover d.recoverDraw sim.map p)
    (le_trans (symptomPass_le sim.size sim.symptom d.symptomDraw _ p)
      (infectPass_le sim.size sim.infect d.infectDraw _ p))

/-- C5 (witness): the amended theorem at the 3-by-3 scenario simulation
(whose movement probability is `0`) and the all-`1/2` draws. -/
theorem c5_witness :
    sim3.moving = 0 ∧ sim3.map (0, 1) ≤ (step sim3 halfDraws).map (0, 1) :=
  ⟨rfl, c5_amended sim3 halfDraws rfl (0, 1)⟩

/-- C6 (counterexample): seeding with the state value `7`, which is none
of the four valid states, is not rejected: the grid is mutated and the
invalid value is written into cell `(0,0)`. -/
theorem c6_counterexample :
    (seed simSeed 1 7 (fun _ => 0)).map (0, 0) = 7 ∧
    simSeed.map (0, 0) = SUSCEPTIBLE ∧
    ¬ ((7:ℚ) = SUSCEPTIBLE ∨ (7:ℚ) = LATENT ∨ (7:ℚ) = INFECTED ∨
       (7:ℚ) = RECOVER) := by decide

/-- C6 (amended): `Seed` validates nothing: for every state value, valid
or not, every in-bounds cell whose draw is strictly below the ratio is
set to that value and every other cell keeps its previous value; no error
is raised. -/
theorem c6_amended (sim : MovingAgentSimulation) (frac state : ℚ)
    (d : ℕ × ℕ → ℚ) (p : ℕ × ℕ) (hp1 : p.1 < sim.size.1)
    (hp2 : p.2 < sim.size.2) :
    (seed sim frac state d).map p =
      if d p < frac then state else sim.map p := by
  by_cases h : d p < frac
  · rw [if_pos h]
    show (if p.1 < sim.size.1 ∧ p.2 < sim.size.2 ∧ d p < frac then state
      else sim.map p) = state
    rw [if_pos ⟨hp1, hp2, h⟩]
  · rw [if_neg h]
    show (if p.1 < sim.size.1 ∧ p.2 < sim.size.2 ∧ d p < frac then state
      else sim.map p) = sim.map p
    rw [if_neg fun hand => h hand.2.2]

/-- C6 (witness): the amended theorem applied to seeding the invalid
state `7` into a 1-by-1 grid with draw `0` and ratio `1`. -/
theorem c6_witness :
    (0:ℕ) < 1 ∧
    (seed simSeed 1 7 (fun _ => 0)).map (0, 0) =
      if (0:ℚ) < 1 then (7:ℚ) else simSeed.map (0, 0) :=
  ⟨by decide, c6_amended simSeed 1 7 (fun _ => 0) (0, 0) (by decide) (by decide)⟩

/-- C7: with recovery probability `1` and movement probability `0`, every
cell that is `INFECTED` when `step` is called is `RECOVER` afterwards,
for every grid and every sequence of recovery draws in `[0, 1)`: each such
draw satisfies `r <= 1`, so the recovery phase rewrites the whole infected
list, and the later phases and the skipped exchange never touch a
`RECOVER` cell. -/
theorem c7_recover_all (sim : MovingAgentSimulation) (d : Draws)
    (hrec : sim.recover = 1) (hmov : sim.moving = 0)
    (hd : ∀ i, 0 ≤ d.recoverDraw i ∧ d.recoverDraw i < 1)
    (p : ℕ × ℕ) (hp1 : p.1 < sim.size.1) (hp2 : p.2 < sim.size.2)
    (hinf : sim.map p = INFECTED) : (step sim d).map p = RECOVER := by
  show stepMap sim d p = RECOVER
  simp only [stepMap]
  rw [if_neg (by rw [hmov]; exact lt_irrefl (0 : ℚ))]
  have h1 : recoverPass sim.size sim.recover d.recoverDraw sim.map p =
      RECOVER := by
    refine recoverPass_all sim.size sim.recover d.recoverDraw sim.map p ?_
      hp1 hp2 hinf
    intro i
    rw [hrec]
    exact le_of_lt (hd i).2
  have h2 : symptomPass sim.size sim.symptom d.symptomDraw
      (recoverPass sim.size sim.recover d.recoverDraw sim.map) p =
      RECOVER := by
    rw [symptomPass_ne _ _ _ _ _ (by rw [h1]; decide), h1]
  rw [infectPass_ne _ _ _ _ _ (by rw [h2]; decide), h2]

/-- C7 (witness): the theorem applied to a fully infected 2-by-1 grid
with `recover = 1`, `moving = 0` and all draws `1/2`. -/
theorem c7_witness :
    simC7.recover = 1 ∧ simC7.moving = 0 ∧ simC7.map (0, 0) = INFECTED ∧
    (step simC7 halfDraws).map (0, 0) = RECOVER :=
  ⟨rfl, rfl, by decide,
    c7_recover_all simC7 halfDraws rfl rfl
      (fun i => ⟨(by decide : (0:ℚ) ≤ half), (by decide : half < 1)⟩)
      (0, 0) (by decide) (by decide) (by decide)⟩

/-- C8: on a 1-by-1 grid, whatever the (positive) movement probability
and however many attempts that yields, every exchange attempt is
discarded: the only legal source cell is `(0,0)`, and in each of the four
directions the boundary test fires, so the exchange phase returns the
grid unchanged. -/
theorem c8_one_cell_unchanged (sim : MovingAgentSimulation) (d : Draws)
    (hsz : sim.size = (1, 1)) (hmv0 : 0 < sim.moving)
    (hx : ∀ i, d.moveX i < 1) (hy : ∀ i, d.moveY i < 1) (p : ℕ × ℕ) :
    exchange sim d p = sim.map p := by
  have hstep : ∀ (m : ℕ × ℕ → ℚ) (i : ℕ),
      exchangeStep sim.size m (d.moveX i) (d.moveY i) (d.moveD i) = m := by
    intro m i
    have hx0 : d.moveX i = 0 := Nat.lt_one_iff.mp (hx i)
    have hy0 : d.moveY i = 0 := Nat.lt_one_iff.mp (hy i)
    unfold exchangeStep
    rw [hsz, hx0, hy0]
    by_cases h0 : d.moveD i = 0
    · rw [if_pos h0, if_pos rfl]
    · rw [if_neg h0]
      by_cases h1 : d.moveD i = 1
      · rw [if_pos h1, if_pos (by decide : (0 : ℕ) = (1, 1).1 - 1)]
      · rw [if_neg h1]
        by_cases h2 : d.moveD i = 2
        · rw [if_pos h2, if_pos rfl]
        · rw [if_neg h2, if_pos (by decide : (0 : ℕ) = (1, 1).2 - 1)]
  have hfold : ∀ (idxs : List ℕ) (m : ℕ × ℕ → ℚ),
      idxs.foldl (fun m0 i =>
        exchangeStep sim.size m0 (d.moveX i) (d.moveY i) (d.moveD i)) m = m := by
    intro idxs
    induction idxs with
    | nil => intro m; rfl
    | cons i tl ih =>
      intro m
      rw [List.foldl_cons, hstep, ih]
  show (List.range (exchangeCount sim)).foldl _ sim.map p = sim.map p
  rw [hfold]

/-- C8 (witness): the theorem applied to a 1-by-1 simulation with
`moving = 1` (one attempt) and the all-zero movement draws. -/
theorem c8_witness :
    sim1.size = (1, 1) ∧ 0 < sim1.moving ∧
    exchange sim1 halfDraws (0, 0) = sim1.map (0, 0) :=
  ⟨rfl, by decide,
    c8_one_cell_unchanged sim1 halfDraws rfl (by decide)
      (fun _ => Nat.one_pos) (fun _ => Nat.one_pos) (0, 0)⟩

/-- C9: the exchange phase preserves the number of cells holding each
value: for every simulation, every draw streams whose source cells are
in bounds (as `np.random.randint(0, size)` guarantees), and every value
`v`, the count of grid positions holding `v` after `exchange` equals the
count before, because each attempt either does nothing or swaps two
in-bounds positions. -/
theorem c9_exchange_preserves_counts (sim : MovingAgentSimulation) (d : Draws)
    (hx : ∀ i, d.moveX i < sim.size.1) (hy : ∀ i, d.moveY i < sim.size.2)
    (v : ℚ) :
    ((allPositions sim.size).countP fun r => decide (exchange sim d r = v)) =
      (allPositions sim.size).countP fun r => decide (sim.map r = v) :=
  countP_exchangeFold sim.size d v hx hy (List.range (exchangeCount sim))
    sim.map

/-- C9 (witness): the theorem applied to the 1-by-2 movement scenario and
the value `RECOVER`. -/
theorem c9_witness :
    ((allPositions (1, 2)).countP fun r =>
      decide (exchange simMove moveDraws r = RECOVER)) =
      (allPositions (1, 2)).countP fun r => decide (simMove.map r = RECOVER) :=
  c9_exchange_preserves_counts simMove moveDraws
    (fun _ => Nat.one_pos) (fun _ => (by decide : (0:ℕ) < 2)) RECOVER

/-- C10: the display map is total and shape-preserving: for every grid it
keeps the size, each cell holding one of the four valid states maps to
that state's fixed RGB triple, and a cell holding any other value maps to
`(0, 0, 0)` (the untouched zero initialization) instead of failing. -/
theorem c10_display_total (data : (ℕ × ℕ) × (ℕ × ℕ → ℚ)) (p : ℕ × ℕ) :
    (convert_to_rgb data).1 = data.1 ∧
    ((data.2 p = SUSCEPTIBLE ∧ (convert_to_rgb data).2 p = (55, 55, 200)) ∨
     (data.2 p = LATENT ∧ (convert_to_rgb data).2 p = (255, 255, 55)) ∨
     (data.2 p = INFECTED ∧ (convert_to_rgb data).2 p = (200, 55, 55)) ∨
     (data.2 p = RECOVER ∧ (convert_to_rgb data).2 p = (55, 200, 55)) ∨
     (data.2 p ≠ SUSCEPTIBLE ∧ data.2 p ≠ LATENT ∧ data.2 p ≠ INFECTED ∧
      data.2 p ≠ RECOVER ∧ (convert_to_rgb data).2 p = (0, 0, 0))) := by
  refine ⟨rfl, ?_⟩
  by_cases h1 : data.2 p = SUSCEPTIBLE
  · exact Or.inl ⟨h1, show (if data.2 p = SUSCEPTIBLE then _ else _) = _ from
      by rw [if_pos h1]⟩
  · by_cases h2 : data.2 p = LATENT
    · refine Or.inr (Or.inl ⟨h2, ?_⟩)
      show (if data.2 p = SUSCEPTIBLE then _ else _) = _
      rw [if_neg h1, if_pos h2]
    · by_cases h3 : data.2 p = INFECTED
      · refine Or.inr (Or.inr (Or.inl ⟨h3, ?_⟩))
        show (if data.2 p = SUSCEPTIBLE then _ else _) = _
        rw [if_neg h1, if_neg h2, if_pos h3]
      · by_cases h4 : data.2 p = RECOVER
        · refine Or.inr (Or.inr (Or.inr (Or.inl ⟨h4, ?_⟩)))
          show (if data.2 p = SUSCEPTIBLE then _ else _) = _
          rw [if_neg h1, if_neg h2, if_neg h3, if_pos h4]
        · refine Or.inr (Or.inr (Or.inr (Or.inr ⟨h1, h2, h3, h4, ?_⟩)))
          show (if data.2 p = SUSCEPTIBLE then _ else _) = _
          rw [if_neg h1, if_neg h2, if_neg h3, if_neg h4]
